import Mathlib

/-!
Verification of the vehicle stream generator's motion model and dispatch
pipeline (Azure-Samples/Stream-processing-with-Azure-Functions,
`event-generator/vehicle_generator`).

Python floats are modelled as real numbers, `math.sin`/`cos`/`asin`/`sqrt`/
`atan2` as their real counterparts, Python's float `%` as `pymod` below, and
list indices as natural numbers.  Functions are translated statement by
statement from `models.py` and `generator.py`.
-/

open Real

/-- Translation of `math.radians`: degrees to radians. -/
noncomputable def radians (x : ℝ) : ℝ := x * Real.pi / 180

/-- Translation of `math.degrees`: radians to degrees. -/
noncomputable def degrees (x : ℝ) : ℝ := x * 180 / Real.pi

/-- Python's float modulo `x % m`: for `m > 0` the result lies in `[0, m)`.
Defined, as in CPython for floats, by `x - m * floor (x / m)`. -/
noncomputable def pymod (x m : ℝ) : ℝ := x - m * ⌊x / m⌋

/-- Translation of `math.atan2 y x` (two-argument arctangent, range
`(-pi, pi]`). -/
noncomputable def atan2 (y x : ℝ) : ℝ :=
  if 0 < x then Real.arctan (y / x)
  else if x < 0 ∧ 0 ≤ y then Real.arctan (y / x) + Real.pi
  else if x < 0 ∧ y < 0 then Real.arctan (y / x) - Real.pi
  else if x = 0 ∧ 0 < y then Real.pi / 2
  else if x = 0 ∧ y < 0 then -(Real.pi / 2)
  else 0

/-- Translation of `models.Route` (the `tag`/`title` strings and the ordered
waypoint list; waypoints are `(lat, lon)` pairs). -/
structure Route where
  tag : String
  title : String
  waypoints : List (ℝ × ℝ)

/-- Translation of `Route.get_distance_between_points` (`models.py` lines
46-71): haversine great-circle distance in km with Earth radius 6371. -/
noncomputable def Route.get_distance_between_points (_r : Route)
    (point1 point2 : ℝ × ℝ) : ℝ :=
  let lat1_rad := radians point1.1
  let lon1_rad := radians point1.2
  let lat2_rad := radians point2.1
  let lon2_rad := radians point2.2
  let dlat := lat2_rad - lat1_rad
  let dlon := lon2_rad - lon1_rad
  let a := Real.sin (dlat / 2) ^ 2 +
    Real.cos lat1_rad * Real.cos lat2_rad * Real.sin (dlon / 2) ^ 2
  let c := 2 * Real.arcsin (Real.sqrt a)
  c * 6371

/-- The haversine distance of a point to itself is zero. -/
lemma get_distance_self (r : Route) (p : ℝ × ℝ) :
    r.get_distance_between_points p p = 0 := by
  simp [Route.get_distance_between_points]

/-- The haversine distance is symmetric in its two points. -/
lemma get_distance_comm (r : Route) (a b : ℝ × ℝ) :
    r.get_distance_between_points a b = r.get_distance_between_points b a := by
  unfold Route.get_distance_between_points
  have h1 : radians a.1 - radians b.1 = -(radians b.1 - radians a.1) := by ring
  have h2 : radians a.2 - radians b.2 = -(radians b.2 - radians a.2) := by ring
  simp only [h1, h2, neg_div, Real.sin_neg, neg_sq]
  ring_nf

/-- The haversine distance is nonnegative. -/
lemma get_distance_nonneg (r : Route) (a b : ℝ × ℝ) :
    0 ≤ r.get_distance_between_points a b := by
  unfold Route.get_distance_between_points
  have h : 0 ≤ Real.arcsin (Real.sqrt (Real.sin ((radians b.1 - radians a.1) / 2) ^ 2 +
      Real.cos (radians a.1) * Real.cos (radians b.1) *
        Real.sin ((radians b.2 - radians a.2) / 2) ^ 2)) :=
    Real.arcsin_nonneg.mpr (Real.sqrt_nonneg _)
  positivity

/-- Positivity of the sine: `sin (pi / k) > 0` whenever `k > 1`. -/
lemma sin_pi_div_pos {k : ℝ} (hk : 1 < k) : 0 < Real.sin (Real.pi / k) := by
  have hk0 : 0 < k := lt_trans one_pos hk
  refine Real.sin_pos_of_pos_of_lt_pi (by positivity) ?_
  exact div_lt_self Real.pi_pos hk

/-- The haversine distance between `(0,0)` and `(1,0)` is strictly positive. -/
lemma get_distance_00_10_pos (r : Route) :
    0 < r.get_distance_between_points (0, 0) (1, 0) := by
  unfold Route.get_distance_between_points
  simp only [radians]
  norm_num
  have harg : (Real.pi / 180) / 2 = Real.pi / 360 := by ring
  rw [harg]
  have hs : 0 < Real.sin (Real.pi / 360) := sin_pi_div_pos (by norm_num)
  have ha : 0 < Real.sin (Real.pi / 360) ^ 2 := by positivity
  have hsq : 0 < Real.sqrt (Real.sin (Real.pi / 360) ^ 2) := Real.sqrt_pos.mpr ha
  have harc : 0 < Real.arcsin (Real.sqrt (Real.sin (Real.pi / 360) ^ 2)) :=
    Real.arcsin_pos.mpr hsq
  positivity

/-- C8: `get_distance_between_points(p, p) = 0` for every point `p`, and the
distance is symmetric: `get_distance_between_points(a, b) =
get_distance_between_points(b, a)`. -/
theorem distance_self_zero_and_symm (r : Route) (p a b : ℝ × ℝ) :
    r.get_distance_between_points p p = 0 ∧
    r.get_distance_between_points a b = r.get_distance_between_points b a :=
  ⟨get_distance_self r p, get_distance_comm r a b⟩

/-- Translation of `models.Vehicle`: mutable simulation state of one vehicle.
The waypoint index is a natural number (the Python code only ever stores
nonnegative indices). -/
structure Vehicle where
  id : String
  route : Route
  current_waypoint_index : ℕ
  progress_to_next_waypoint : ℝ
  speed_km_hr : ℝ
  heading : ℝ

/-- Translation of `Vehicle.get_current_position` (`models.py` lines 85-103).
Python's `waypoints[-1]` on a nonempty list is the last element; the in-range
accesses `waypoints[i]` are rendered with `List.getD` (they are guarded to be
in bounds, see `get_current_position_checked` for the bounds-checked
rendering). -/
noncomputable def get_current_position (v : Vehicle) : ℝ × ℝ :=
  if v.route.waypoints = [] then (0, 0)
  else if v.route.waypoints.length - 1 ≤ v.current_waypoint_index then
    v.route.waypoints.getLastD (0, 0)
  else
    let current_waypoint := v.route.waypoints.getD v.current_waypoint_index (0, 0)
    let next_waypoint := v.route.waypoints.getD (v.current_waypoint_index + 1) (0, 0)
    (current_waypoint.1 + (next_waypoint.1 - current_waypoint.1) * v.progress_to_next_waypoint,
     current_waypoint.2 + (next_waypoint.2 - current_waypoint.2) * v.progress_to_next_waypoint)

/-- Translation of `Vehicle.update_heading` (`models.py` lines 105-130):
recomputes the heading as the initial bearing of the current segment,
normalized into `[0, 360)`; a no-op at or past the last waypoint index (note
`len(waypoints) - 1` is `-1` in Python and `0` in ℕ for an empty list; the
guard fires in both renderings). -/
noncomputable def update_heading (v : Vehicle) : Vehicle :=
  if v.route.waypoints.length - 1 ≤ v.current_waypoint_index then v
  else
    let current_waypoint := v.route.waypoints.getD v.current_waypoint_index (0, 0)
    let next_waypoint := v.route.waypoints.getD (v.current_waypoint_index + 1) (0, 0)
    let lat1_rad := radians current_waypoint.1
    let lat2_rad := radians next_waypoint.1
    let dlon_rad := radians (next_waypoint.2 - current_waypoint.2)
    let y := Real.sin dlon_rad * Real.cos lat2_rad
    let x := Real.cos lat1_rad * Real.sin lat2_rad -
      Real.sin lat1_rad * Real.cos lat2_rad * Real.cos dlon_rad
    let bearing := atan2 y x
    let bearing_degrees := pymod (degrees bearing + 360) 360
    { v with heading := bearing_degrees }

/-- Translation of the `while` loop of `Vehicle.advance` (`models.py` lines
156-164) on the pair (index, progress): while `progress >= 1.0` and the index
is below the last index, subtract 1 from the progress and move the index on;
if that reaches the last index, reset to index 0, progress 0 and stop. -/
noncomputable def advance_loop (last : ℕ) (idx : ℕ) (p : ℝ) : ℕ × ℝ :=
  if h : 1 ≤ p ∧ idx < last then
    if last ≤ idx + 1 then (0, 0)
    else advance_loop last (idx + 1) (p - 1)
  else (idx, p)
termination_by last - idx
decreasing_by
  omega

/-- Translation of `Vehicle.advance` (`models.py` lines 132-166). -/
noncomputable def advance (time_step_seconds : ℝ) (v : Vehicle) : Vehicle :=
  if v.route.waypoints = [] ∨ v.route.waypoints.length - 1 ≤ v.current_waypoint_index then v
  else
    let distance_km := v.speed_km_hr / 3600 * time_step_seconds
    let current_waypoint := v.route.waypoints.getD v.current_waypoint_index (0, 0)
    let next_waypoint := v.route.waypoints.getD (v.current_waypoint_index + 1) (0, 0)
    let segment_distance := v.route.get_distance_between_points current_waypoint next_waypoint
    if segment_distance = 0 then
      { v with current_waypoint_index := v.current_waypoint_index + 1,
               progress_to_next_waypoint := 0 }
    else
      let progress_increment := distance_km / segment_distance
      let s := advance_loop (v.route.waypoints.length - 1) v.current_waypoint_index
        (v.progress_to_next_waypoint + progress_increment)
      update_heading { v with current_waypoint_index := s.1,
                              progress_to_next_waypoint := s.2 }

/-- Iterated advancement: `n` successive calls of `advance`, each with the same time step. -/
noncomputable def advance_iter : ℕ → ℝ → Vehicle → Vehicle
  | 0, _, v => v
  | n + 1, dt, v => advance dt (advance_iter n dt v)

/-- Total length of a route: the sum of the haversine lengths of its
consecutive segments. -/
noncomputable def total_route_distance (r : Route) : ℝ :=
  ((List.range (r.waypoints.length - 1)).map (fun i =>
    r.get_distance_between_points (r.waypoints.getD i (0, 0))
      (r.waypoints.getD (i + 1) (0, 0)))).sum

lemma update_heading_route (v : Vehicle) : (update_heading v).route = v.route := by
  unfold update_heading; split <;> rfl

lemma update_heading_index (v : Vehicle) :
    (update_heading v).current_waypoint_index = v.current_waypoint_index := by
  unfold update_heading; split <;> rfl

lemma update_heading_progress (v : Vehicle) :
    (update_heading v).progress_to_next_waypoint = v.progress_to_next_waypoint := by
  unfold update_heading; split <;> rfl

lemma update_heading_speed (v : Vehicle) :
    (update_heading v).speed_km_hr = v.speed_km_hr := by
  unfold update_heading; split <;> rfl

lemma update_heading_id (v : Vehicle) : (update_heading v).id = v.id := by
  unfold update_heading; split <;> rfl

lemma advance_route (dt : ℝ) (v : Vehicle) : (advance dt v).route = v.route := by
  unfold advance
  split
  · rfl
  · dsimp only
    split
    · rfl
    · rw [update_heading_route]

lemma advance_speed (dt : ℝ) (v : Vehicle) :
    (advance dt v).speed_km_hr = v.speed_km_hr := by
  unfold advance
  split
  · rfl
  · dsimp only
    split
    · rfl
    · rw [update_heading_speed]

lemma advance_loop_spec : ∀ (n last idx : ℕ) (p : ℝ), last - idx ≤ n →
    idx < last → 0 ≤ p →
    advance_loop last idx p = (0, 0) ∨
    (idx ≤ (advance_loop last idx p).1 ∧ (advance_loop last idx p).1 < last ∧
     0 ≤ (advance_loop last idx p).2 ∧ (advance_loop last idx p).2 < 1) := by
  intro n
  induction n with
  | zero => intro last idx p hn hlt _; omega
  | succ n ih =>
    intro last idx p hn hlt hp
    rw [advance_loop]
    by_cases hp1 : 1 ≤ p
    · rw [dif_pos ⟨hp1, hlt⟩]
      by_cases hl : last ≤ idx + 1
      · rw [if_pos hl]
        exact Or.inl rfl
      · rw [if_neg hl]
        rcases ih last (idx + 1) (p - 1) (by omega) (by omega) (by linarith) with h | ⟨h1, h2, h3, h4⟩
        · exact Or.inl h
        · exact Or.inr ⟨Nat.le_of_succ_le h1, h2, h3, h4⟩
    · rw [dif_neg (by tauto)]
      exact Or.inr ⟨le_refl idx, hlt, hp, lt_of_not_le hp1⟩

lemma advance_loop_bounds (last idx : ℕ) (p : ℝ) (hlt : idx < last) (hp : 0 ≤ p) :
    advance_loop last idx p = (0, 0) ∨
    (idx ≤ (advance_loop last idx p).1 ∧ (advance_loop last idx p).1 < last ∧
     0 ≤ (advance_loop last idx p).2 ∧ (advance_loop last idx p).2 < 1) :=
  advance_loop_spec (last - idx) last idx p (le_refl _) hlt hp

lemma advance_loop_strict (last idx : ℕ) (p : ℝ) (hlt : idx < last) (hp1 : 1 ≤ p) :
    advance_loop last idx p = (0, 0) ∨
    (idx < (advance_loop last idx p).1 ∧ (advance_loop last idx p).1 < last ∧
     0 ≤ (advance_loop last idx p).2 ∧ (advance_loop last idx p).2 < 1) := by
  rw [advance_loop, dif_pos ⟨hp1, hlt⟩]
  by_cases hl : last ≤ idx + 1
  · rw [if_pos hl]
    exact Or.inl rfl
  · rw [if_neg hl]
    rcases advance_loop_bounds last (idx + 1) (p - 1) (by omega) (by linarith) with
      h | ⟨h1, h2, h3, h4⟩
    · exact Or.inl h
    · exact Or.inr ⟨Nat.lt_of_succ_le h1, h2, h3, h4⟩

lemma pymod_eq_fract (x m : ℝ) (hm : m ≠ 0) : pymod x m = m * Int.fract (x / m) := by
  unfold pymod Int.fract
  rw [mul_sub, mul_div_cancel₀ _ hm]

lemma pymod_bounds (x m : ℝ) (hm : 0 < m) : 0 ≤ pymod x m ∧ pymod x m < m := by
  rw [pymod_eq_fract x m hm.ne']
  constructor
  · exact mul_nonneg hm.le (Int.fract_nonneg _)
  · have h := mul_lt_mul_of_pos_left (Int.fract_lt_one (x / m)) hm
    linarith

/-- C7: after `update_heading`, for a vehicle not at its last waypoint index,
the heading lies in `[0, 360)`. -/
theorem update_heading_range (v : Vehicle)
    (h : v.current_waypoint_index < v.route.waypoints.length - 1) :
    0 ≤ (update_heading v).heading ∧ (update_heading v).heading < 360 := by
  unfold update_heading
  rw [if_neg (not_le.mpr h)]
  exact pymod_bounds _ 360 (by norm_num)

/-- Demo-style two-waypoint route used to instantiate the theorems. -/
def route_ab : Route := ⟨"r-ab", "Two waypoints", [((0 : ℝ), (0 : ℝ)), ((1 : ℝ), (0 : ℝ))]⟩

/-- A concrete vehicle at the start of `route_ab`. -/
def vab : Vehicle := ⟨"vehicle-001", route_ab, 0, 0, 25, 0⟩

/-- C7 witness: the heading bound instantiated on a concrete vehicle. -/
theorem update_heading_range_witness :
    vab.current_waypoint_index < vab.route.waypoints.length - 1 ∧
    (0 ≤ (update_heading vab).heading ∧ (update_heading vab).heading < 360) :=
  ⟨by norm_num [vab, route_ab], update_heading_range vab (by norm_num [vab, route_ab])⟩

/-- C5: `advance` keeps `progress_to_next_waypoint` in `[0, 1)`: for any
vehicle with `0 ≤ progress < 1`, nonnegative speed (the data model gives every
vehicle a positive speed), and any time step `dt ≥ 0`, after `advance dt` the
progress again satisfies `0 ≤ progress < 1`. -/
theorem advance_progress_invariant (v : Vehicle) (dt : ℝ)
    (hp0 : 0 ≤ v.progress_to_next_waypoint) (hp1 : v.progress_to_next_waypoint < 1)
    (hdt : 0 ≤ dt) (hs : 0 ≤ v.speed_km_hr) :
    0 ≤ (advance dt v).progress_to_next_waypoint ∧
    (advance dt v).progress_to_next_waypoint < 1 := by
  unfold advance
  split
  · exact ⟨hp0, hp1⟩
  · rename_i hg
    dsimp only
    split
    · exact ⟨le_refl 0, one_pos⟩
    · rename_i hseg
      have hlt : v.current_waypoint_index < v.route.waypoints.length - 1 := by
        rcases not_or.mp hg with ⟨_, h2⟩
        omega
      have hsegpos : 0 < v.route.get_distance_between_points
          (v.route.waypoints.getD v.current_waypoint_index (0, 0))
          (v.route.waypoints.getD (v.current_waypoint_index + 1) (0, 0)) :=
        lt_of_le_of_ne (get_distance_nonneg _ _ _) (Ne.symm hseg)
      have hdk : 0 ≤ v.speed_km_hr / 3600 * dt :=
        mul_nonneg (div_nonneg hs (by norm_num)) hdt
      have hinc : 0 ≤ v.speed_km_hr / 3600 * dt /
          v.route.get_distance_between_points
            (v.route.waypoints.getD v.current_waypoint_index (0, 0))
            (v.route.waypoints.getD (v.current_waypoint_index + 1) (0, 0)) :=
        div_nonneg hdk hsegpos.le
      rw [update_heading_progress]
      dsimp only
      rcases advance_loop_bounds (v.route.waypoints.length - 1) v.current_waypoint_index
          (v.progress_to_next_waypoint + _) hlt (add_nonneg hp0 hinc) with h | ⟨_, _, h3, h4⟩
      · rw [h]
        exact ⟨le_refl 0, one_pos⟩
      · exact ⟨h3, h4⟩

/-- C5 witness: the progress invariant instantiated on a concrete vehicle and
time step. -/
theorem advance_progress_invariant_witness :
    (0 ≤ vab.progress_to_next_waypoint ∧ vab.progress_to_next_waypoint < 1 ∧
     (0 : ℝ) ≤ 7 ∧ 0 ≤ vab.speed_km_hr) ∧
    (0 ≤ (advance 7 vab).progress_to_next_waypoint ∧
     (advance 7 vab).progress_to_next_waypoint < 1) :=
  ⟨by norm_num [vab], advance_progress_invariant vab 7 (by norm_num [vab])
    (by norm_num [vab]) (by norm_num) (by norm_num [vab])⟩

/-- C6: with the progress interpolation factor set to 0, the reported position
is exactly the waypoint at the current index; set to 1, exactly the next
waypoint (for a vehicle not at its last index). -/
theorem get_position_endpoints (v : Vehicle)
    (h : v.current_waypoint_index + 1 < v.route.waypoints.length) :
    get_current_position { v with progress_to_next_waypoint := 0 } =
      v.route.waypoints.get ⟨v.current_waypoint_index, Nat.lt_of_succ_lt h⟩ ∧
    get_current_position { v with progress_to_next_waypoint := 1 } =
      v.route.waypoints.get ⟨v.current_waypoint_index + 1, h⟩ := by
  have hne : v.route.waypoints ≠ [] := by
    intro e
    rw [e] at h
    simp at h
  have hlt : ¬ (v.route.waypoints.length - 1 ≤ v.current_waypoint_index) := by omega
  have e1 : v.route.waypoints.getD v.current_waypoint_index (0, 0) =
      v.route.waypoints.get ⟨v.current_waypoint_index, Nat.lt_of_succ_lt h⟩ :=
    List.getD_eq_get v.route.waypoints (0, 0) (Nat.lt_of_succ_lt h)
  have e2 : v.route.waypoints.getD (v.current_waypoint_index + 1) (0, 0) =
      v.route.waypoints.get ⟨v.current_waypoint_index + 1, h⟩ :=
    List.getD_eq_get v.route.waypoints (0, 0) h
  constructor
  · unfold get_current_position
    rw [if_neg hne, if_neg hlt]
    dsimp only
    rw [e1]
    apply Prod.ext <;> dsimp <;> ring
  · unfold get_current_position
    rw [if_neg hne, if_neg hlt]
    dsimp only
    rw [e1, e2]
    apply Prod.ext <;> dsimp <;> ring

/-- C6 witness: the interpolation endpoints instantiated on a concrete
vehicle. -/
theorem get_position_endpoints_witness :
    vab.current_waypoint_index + 1 < vab.route.waypoints.length ∧
    (get_current_position { vab with progress_to_next_waypoint := 0 } =
       vab.route.waypoints.get ⟨vab.current_waypoint_index, by norm_num [vab, route_ab]⟩ ∧
     get_current_position { vab with progress_to_next_waypoint := 1 } =
       vab.route.waypoints.get ⟨vab.current_waypoint_index + 1, by norm_num [vab, route_ab]⟩) :=
  ⟨by norm_num [vab, route_ab], get_position_endpoints vab (by norm_num [vab, route_ab])⟩

/-- C9: a vehicle on a route with exactly one waypoint is left entirely
unchanged by any sequence of `advance` calls with arbitrary time steps. -/
theorem single_waypoint_advance_fixed (v : Vehicle)
    (h : v.route.waypoints.length = 1) (dts : List ℝ) :
    dts.foldl (fun w dt => advance dt w) v = v := by
  have hstep : ∀ dt : ℝ, advance dt v = v := by
    intro dt
    unfold advance
    rw [if_pos (Or.inr (by omega))]
  induction dts with
  | nil => rfl
  | cons d ds ih =>
    rw [List.foldl_cons, hstep d]
    exact ih

/-- Rendering of `Vehicle.get_current_position` in which each Python list
subscript is bounds-checked (`none` models an `IndexError`); `waypoints[-1]`
fails exactly when the list is empty, which its guard rules out. -/
noncomputable def get_current_position_checked (v : Vehicle) : Option (ℝ × ℝ) :=
  if v.route.waypoints = [] then some (0, 0)
  else if v.route.waypoints.length - 1 ≤ v.current_waypoint_index then
    v.route.waypoints.getLast?
  else
    match v.route.waypoints[v.current_waypoint_index]?,
        v.route.waypoints[v.current_waypoint_index + 1]? with
    | some current_waypoint, some next_waypoint =>
      some (current_waypoint.1 +
              (next_waypoint.1 - current_waypoint.1) * v.progress_to_next_waypoint,
            current_waypoint.2 +
              (next_waypoint.2 - current_waypoint.2) * v.progress_to_next_waypoint)
    | _, _ => none

/-- Rendering of `Vehicle.update_heading` with bounds-checked subscripts
(`none` models an `IndexError`). -/
noncomputable def update_heading_checked (v : Vehicle) : Option Vehicle :=
  if v.route.waypoints.length - 1 ≤ v.current_waypoint_index then some v
  else
    match v.route.waypoints[v.current_waypoint_index]?,
        v.route.waypoints[v.current_waypoint_index + 1]? with
    | some current_waypoint, some next_waypoint =>
      let lat1_rad := radians current_waypoint.1
      let lat2_rad := radians next_waypoint.1
      let dlon_rad := radians (next_waypoint.2 - current_waypoint.2)
      let y := Real.sin dlon_rad * Real.cos lat2_rad
      let x := Real.cos lat1_rad * Real.sin lat2_rad -
        Real.sin lat1_rad * Real.cos lat2_rad * Real.cos dlon_rad
      some { v with heading := pymod (degrees (atan2 y x) + 360) 360 }
    | _, _ => none

/-- Rendering of `Vehicle.advance` with bounds-checked subscripts (`none`
models an `IndexError`). -/
noncomputable def advance_checked (time_step_seconds : ℝ) (v : Vehicle) : Option Vehicle :=
  if v.route.waypoints = [] ∨ v.route.waypoints.length - 1 ≤ v.current_waypoint_index then
    some v
  else
    match v.route.waypoints[v.current_waypoint_index]?,
        v.route.waypoints[v.current_waypoint_index + 1]? with
    | some current_waypoint, some next_waypoint =>
      let distance_km := v.speed_km_hr / 3600 * time_step_seconds
      let segment_distance := v.route.get_distance_between_points current_waypoint next_waypoint
      if segment_distance = 0 then
        some { v with current_waypoint_index := v.current_waypoint_index + 1,
                      progress_to_next_waypoint := 0 }
      else
        let progress_increment := distance_km / segment_distance
        let s := advance_loop (v.route.waypoints.length - 1) v.current_waypoint_index
          (v.progress_to_next_waypoint + progress_increment)
        update_heading_checked { v with current_waypoint_index := s.1,
                                        progress_to_next_waypoint := s.2 }
    | _, _ => none

lemma getLastD_eq_getLast {α : Type} (l : List α) (d : α) (h : l ≠ []) :
    l.getLastD d = l.getLast h := by
  rw [List.getLastD_eq_getLast?, List.getLast?_eq_getLast_of_ne_nil h]
  rfl

/-- C10: for a vehicle at or past the last waypoint index of a nonempty route
(indices strictly past the end included), `get_current_position` returns the
final waypoint without any out-of-bounds access, and `update_heading` and
`advance` return the vehicle unchanged; the bounds-checked renderings all
succeed, so the three operations are total on such states. -/
theorem past_end_operations_total (v : Vehicle) (dt : ℝ)
    (hne : v.route.waypoints ≠ [])
    (h : v.route.waypoints.length - 1 ≤ v.current_waypoint_index) :
    get_current_position v = v.route.waypoints.getLast hne ∧
    get_current_position_checked v = some (v.route.waypoints.getLast hne) ∧
    update_heading v = v ∧
    update_heading_checked v = some v ∧
    advance dt v = v ∧
    advance_checked dt v = some v := by
  refine ⟨?_, ?_, ?_, ?_, ?_, ?_⟩
  · unfold get_current_position
    rw [if_neg hne, if_pos h]
    exact getLastD_eq_getLast _ _ hne
  · unfold get_current_position_checked
    rw [if_neg hne, if_pos h]
    rw [List.getLast?_eq_getLast_of_ne_nil hne]
  · unfold update_heading
    rw [if_pos h]
  · unfold update_heading_checked
    rw [if_pos h]
  · unfold advance
    rw [if_pos (Or.inr h)]
  · unfold advance_checked
    rw [if_pos (Or.inr h)]

/-- A concrete vehicle whose index (5) is strictly past the end of its
two-waypoint route. -/
def vpast : Vehicle := ⟨"vehicle-003", route_ab, 5, 0.25, 25, 90⟩

/-- C10 witness: totality past the end instantiated on a concrete vehicle with
index 5 on a two-waypoint route. -/
theorem past_end_operations_total_witness :
    (vpast.route.waypoints ≠ [] ∧
     vpast.route.waypoints.length - 1 ≤ vpast.current_waypoint_index) ∧
    (get_current_position vpast =
       vpast.route.waypoints.getLast (by simp [vpast, route_ab]) ∧
     get_current_position_checked vpast =
       some (vpast.route.waypoints.getLast (by simp [vpast, route_ab])) ∧
     update_heading vpast = vpast ∧
     update_heading_checked vpast = some vpast ∧
     advance 1 vpast = vpast ∧
     advance_checked 1 vpast = some vpast) :=
  ⟨⟨by simp [vpast, route_ab], by simp [vpast, route_ab]⟩,
   past_end_operations_total vpast 1 (by simp [vpast, route_ab])
     (by simp [vpast, route_ab])⟩

/-- The bearing computation of `update_heading`, factored out for reasoning;
it depends only on the route and the current index. -/
noncomputable def segment_bearing_degrees (v : Vehicle) : ℝ :=
  let current_waypoint := v.route.waypoints.getD v.current_waypoint_index (0, 0)
  let next_waypoint := v.route.waypoints.getD (v.current_waypoint_index + 1) (0, 0)
  let lat1_rad := radians current_waypoint.1
  let lat2_rad := radians next_waypoint.1
  let dlon_rad := radians (next_waypoint.2 - current_waypoint.2)
  let y := Real.sin dlon_rad * Real.cos lat2_rad
  let x := Real.cos lat1_rad * Real.sin lat2_rad -
    Real.sin lat1_rad * Real.cos lat2_rad * Real.cos dlon_rad
  pymod (degrees (atan2 y x) + 360) 360

lemma update_heading_eq (v : Vehicle) :
    update_heading v =
      if v.route.waypoints.length - 1 ≤ v.current_waypoint_index then v
      else { v with heading := segment_bearing_degrees v } := rfl

lemma segment_bearing_congr (v w : Vehicle) (hr : v.route = w.route)
    (hi : v.current_waypoint_index = w.current_waypoint_index) :
    segment_bearing_degrees v = segment_bearing_degrees w := by
  unfold segment_bearing_degrees
  rw [hr, hi]

lemma update_heading_idem (v : Vehicle) :
    update_heading (update_heading v) = update_heading v := by
  by_cases h : v.route.waypoints.length - 1 ≤ v.current_waypoint_index
  · have e : update_heading v = v := by rw [update_heading_eq, if_pos h]
    rw [e, e]
  · have e : update_heading v = { v with heading := segment_bearing_degrees v } := by
      rw [update_heading_eq, if_neg h]
    have h2 : ¬ ((update_heading v).route.waypoints.length - 1 ≤
        (update_heading v).current_waypoint_index) := by
      rw [update_heading_route, update_heading_index]
      exact h
    rw [update_heading_eq (update_heading v), if_neg h2,
      segment_bearing_congr (update_heading v) v (update_heading_route v)
        (update_heading_index v), e]

/-- C4 (amended): whenever `advance` does not take the zero-length-segment
snap branch, the heading it leaves behind is exactly the recomputed bearing of
the (possibly new) current segment — i.e. `update_heading` is a no-op on the
result of `advance`. -/
theorem advance_heading_consistent (dt : ℝ) (v : Vehicle)
    (h : v.current_waypoint_index < v.route.waypoints.length - 1 →
      v.route.get_distance_between_points
        (v.route.waypoints.getD v.current_waypoint_index (0, 0))
        (v.route.waypoints.getD (v.current_waypoint_index + 1) (0, 0)) ≠ 0) :
    update_heading (advance dt v) = advance dt v := by
  unfold advance
  split
  · rename_i hg
    have hle : v.route.waypoints.length - 1 ≤ v.current_waypoint_index := by
      rcases hg with he | hle
      · rw [he]
        simp
      · exact hle
    rw [update_heading_eq, if_pos hle]
  · rename_i hg
    dsimp only
    split
    · rename_i hseg
      have hlt : v.current_waypoint_index < v.route.waypoints.length - 1 := by
        rcases not_or.mp hg with ⟨_, h2⟩
        omega
      exact absurd hseg (h hlt)
    · exact update_heading_idem _

/-- C4 (amended) witness: heading consistency after `advance` instantiated on
a concrete vehicle whose current segment has nonzero length. -/
theorem advance_heading_consistent_witness :
    (vab.current_waypoint_index < vab.route.waypoints.length - 1 →
      vab.route.get_distance_between_points
        (vab.route.waypoints.getD vab.current_waypoint_index (0, 0))
        (vab.route.waypoints.getD (vab.current_waypoint_index + 1) (0, 0)) ≠ 0) ∧
    update_heading (advance 1 vab) = advance 1 vab := by
  have hd : vab.route.get_distance_between_points
      (vab.route.waypoints.getD vab.current_waypoint_index (0, 0))
      (vab.route.waypoints.getD (vab.current_waypoint_index + 1) (0, 0)) ≠ 0 := by
    have e0 : vab.route.waypoints.getD vab.current_waypoint_index (0, 0) =
        ((0 : ℝ), (0 : ℝ)) := rfl
    have e1 : vab.route.waypoints.getD (vab.current_waypoint_index + 1) (0, 0) =
        ((1 : ℝ), (0 : ℝ)) := rfl
    rw [e0, e1]
    exact (get_distance_00_10_pos vab.route).ne'
  exact ⟨fun _ => hd, advance_heading_consistent 1 vab (fun _ => hd)⟩

lemma pymod_self (m : ℝ) (hm : m ≠ 0) : pymod m m = 0 := by
  unfold pymod
  rw [div_self hm]
  norm_num

/-- If the current segment runs from `(0,0)` to `(1,0)` (due north), the
bearing computed by `update_heading` is 0 degrees. -/
lemma update_heading_north (v : Vehicle)
    (hidx : v.current_waypoint_index < v.route.waypoints.length - 1)
    (hcur : v.route.waypoints.getD v.current_waypoint_index (0, 0) = ((0 : ℝ), (0 : ℝ)))
    (hnxt : v.route.waypoints.getD (v.current_waypoint_index + 1) (0, 0) = ((1 : ℝ), (0 : ℝ))) :
    (update_heading v).heading = 0 := by
  rw [update_heading_eq, if_neg (not_le.mpr hidx)]
  show segment_bearing_degrees v = 0
  unfold segment_bearing_degrees
  rw [hcur, hnxt]
  show pymod (degrees (atan2
      (Real.sin (radians ((0 : ℝ) - 0)) * Real.cos (radians (1 : ℝ)))
      (Real.cos (radians (0 : ℝ)) * Real.sin (radians (1 : ℝ)) -
        Real.sin (radians (0 : ℝ)) * Real.cos (radians (1 : ℝ)) *
          Real.cos (radians ((0 : ℝ) - 0)))) + 360) 360 = 0
  have h0 : radians ((0 : ℝ) - 0) = 0 := by
    show ((0 : ℝ) - 0) * Real.pi / 180 = 0
    ring
  have h00 : radians (0 : ℝ) = 0 := by
    show (0 : ℝ) * Real.pi / 180 = 0
    ring
  have h1 : radians (1 : ℝ) = Real.pi / 180 := by
    show (1 : ℝ) * Real.pi / 180 = Real.pi / 180
    ring
  rw [h0, h00, h1, Real.sin_zero, Real.cos_zero]
  norm_num
  have hxpos : 0 < Real.sin (Real.pi / 180) := sin_pi_div_pos (by norm_num)
  have hatan : atan2 0 (Real.sin (Real.pi / 180)) = 0 := by
    unfold atan2
    rw [if_pos hxpos, zero_div, Real.arctan_zero]
  rw [hatan]
  have hdeg : degrees 0 = 0 := by
    show (0 : ℝ) * 180 / Real.pi = 0
    ring
  rw [hdeg, zero_add]
  exact pymod_self 360 (by norm_num)

/-- A route whose first segment is degenerate (two identical waypoints)
followed by a northward segment. -/
def route_snap : Route :=
  ⟨"r-snap", "Degenerate first segment",
   [((0 : ℝ), (0 : ℝ)), ((0 : ℝ), (0 : ℝ)), ((1 : ℝ), (0 : ℝ))]⟩

/-- A concrete vehicle at the start of `route_snap` with heading 90. -/
def vsnap : Vehicle := ⟨"vehicle-004", route_snap, 0, 0, 25, 90⟩

lemma advance_vsnap : advance 1 vsnap =
    { vsnap with current_waypoint_index := 1, progress_to_next_waypoint := 0 } := by
  unfold advance
  rw [if_neg (by simp [vsnap, route_snap])]
  dsimp only
  have e0 : vsnap.route.waypoints.getD vsnap.current_waypoint_index (0, 0) =
      ((0 : ℝ), (0 : ℝ)) := rfl
  have e1 : vsnap.route.waypoints.getD (vsnap.current_waypoint_index + 1) (0, 0) =
      ((0 : ℝ), (0 : ℝ)) := rfl
  rw [e0, e1, if_pos (get_distance_self vsnap.route ((0 : ℝ), (0 : ℝ)))]
  rfl

/-- C4 counterexample: on the zero-length-segment snap branch, `advance`
mutates `current_waypoint_index` without invoking `update_heading`: the
concrete vehicle `vsnap` ends the call with its stale heading 90, while the
recomputed bearing of its new current segment is 0. -/
theorem advance_heading_not_recomputed :
    vsnap.current_waypoint_index = 0 ∧
    (advance 1 vsnap).current_waypoint_index = 1 ∧
    (advance 1 vsnap).heading = 90 ∧
    (update_heading (advance 1 vsnap)).heading = 0 := by
  refine ⟨rfl, ?_, ?_, ?_⟩
  · rw [advance_vsnap]
  · rw [advance_vsnap]
    rfl
  · rw [advance_vsnap]
    apply update_heading_north
    · show (1 : ℕ) < 3 - 1
      norm_num
    · rfl
    · rfl

lemma advance_iter_succ (n : ℕ) (dt : ℝ) (v : Vehicle) :
    advance_iter (n + 1) dt v = advance_iter n dt (advance dt v) := by
  induction n generalizing v with
  | zero => rfl
  | succ n ih =>
    show advance dt (advance_iter (n + 1) dt v) = advance dt (advance_iter n dt (advance dt v))
    rw [ih]

lemma segment_le_total (r : Route) (i : ℕ) (hi : i + 1 < r.waypoints.length) :
    r.get_distance_between_points (r.waypoints.getD i (0, 0))
      (r.waypoints.getD (i + 1) (0, 0)) ≤ total_route_distance r := by
  unfold total_route_distance
  refine List.single_le_sum ?_ _ ?_
  · intro x hx
    obtain ⟨j, -, rfl⟩ := List.mem_map.mp hx
    exact get_distance_nonneg _ _ _
  · exact List.mem_map_of_mem _ (List.mem_range.mpr (by omega))

/-- One `advance` call with the full-route time, from a non-parked state of a
route all of whose segments have positive length, either lands exactly on
(index 0, progress 0) or strictly increases the waypoint index. -/
lemma advance_step_closure (v : Vehicle) (T : ℝ)
    (hsegs : ∀ i, i + 1 < v.route.waypoints.length →
      0 < v.route.get_distance_between_points (v.route.waypoints.getD i (0, 0))
        (v.route.waypoints.getD (i + 1) (0, 0)))
    (hT : v.speed_km_hr / 3600 * T = total_route_distance v.route)
    (hi : v.current_waypoint_index < v.route.waypoints.length - 1)
    (hp : 0 ≤ v.progress_to_next_waypoint) :
    ((advance T v).current_waypoint_index = 0 ∧
     (advance T v).progress_to_next_waypoint = 0) ∨
    (v.current_waypoint_index < (advance T v).current_waypoint_index ∧
     (advance T v).current_waypoint_index < v.route.waypoints.length - 1 ∧
     0 ≤ (advance T v).progress_to_next_waypoint) := by
  have hne : v.route.waypoints ≠ [] := by
    intro e
    rw [e] at hi
    simp at hi
  have hidx1 : v.current_waypoint_index + 1 < v.route.waypoints.length := by omega
  unfold advance
  rw [if_neg (by push_neg; exact ⟨hne, by omega⟩)]
  dsimp only
  split
  · rename_i hseg0
    exact absurd hseg0 (hsegs v.current_waypoint_index hidx1).ne'
  · rename_i hsegne
    have hsegpos := hsegs v.current_waypoint_index hidx1
    rw [update_heading_index, update_heading_progress]
    dsimp only
    rw [hT]
    have hsegle := segment_le_total v.route v.current_waypoint_index hidx1
    have hinc : 1 ≤ total_route_distance v.route /
        v.route.get_distance_between_points
          (v.route.waypoints.getD v.current_waypoint_index (0, 0))
          (v.route.waypoints.getD (v.current_waypoint_index + 1) (0, 0)) :=
      (one_le_div hsegpos).mpr hsegle
    have hentry : 1 ≤ v.progress_to_next_waypoint + total_route_distance v.route /
        v.route.get_distance_between_points
          (v.route.waypoints.getD v.current_waypoint_index (0, 0))
          (v.route.waypoints.getD (v.current_waypoint_index + 1) (0, 0)) := by
      linarith
    rcases advance_loop_strict (v.route.waypoints.length - 1) v.current_waypoint_index
        _ hi hentry with h | ⟨h1, h2, h3, _⟩
    · left
      rw [h]
      exact ⟨rfl, rfl⟩
    · right
      exact ⟨h1, h2, h3⟩

/-- C1 (amended): for a route with at least two waypoints all of whose
segments have strictly positive length, a vehicle with positive speed that is
not parked at the last index returns to waypoint index 0 with progress 0
after finitely many (at least one) calls of `advance` with the time required
to cover the full route distance. -/
theorem advance_full_route_loop_closure (v : Vehicle) (T : ℝ)
    (hN : 2 ≤ v.route.waypoints.length)
    (hsegs : ∀ i, i + 1 < v.route.waypoints.length →
      0 < v.route.get_distance_between_points (v.route.waypoints.getD i (0, 0))
        (v.route.waypoints.getD (i + 1) (0, 0)))
    (hsp : 0 < v.speed_km_hr)
    (hT : v.speed_km_hr / 3600 * T = total_route_distance v.route)
    (hi : v.current_waypoint_index < v.route.waypoints.length - 1)
    (hp : 0 ≤ v.progress_to_next_waypoint) :
    ∃ k, 1 ≤ k ∧ (advance_iter k T v).current_waypoint_index = 0 ∧
      (advance_iter k T v).progress_to_next_waypoint = 0 := by
  clear hN hsp
  have main : ∀ (m : ℕ) (w : Vehicle),
      (∀ i, i + 1 < w.route.waypoints.length →
        0 < w.route.get_distance_between_points (w.route.waypoints.getD i (0, 0))
          (w.route.waypoints.getD (i + 1) (0, 0))) →
      w.speed_km_hr / 3600 * T = total_route_distance w.route →
      w.current_waypoint_index < w.route.waypoints.length - 1 →
      0 ≤ w.progress_to_next_waypoint →
      w.route.waypoints.length - 1 - w.current_waypoint_index ≤ m →
      ∃ k, 1 ≤ k ∧ (advance_iter k T w).current_waypoint_index = 0 ∧
        (advance_iter k T w).progress_to_next_waypoint = 0 := by
    intro m
    induction m with
    | zero =>
      intro w _ _ hwi _ hm
      omega
    | succ m ih =>
      intro w hwsegs hwT hwi hwp hm
      rcases advance_step_closure w T hwsegs hwT hwi hwp with ⟨h1, h2⟩ | ⟨h1, h2, h3⟩
      · exact ⟨1, le_refl 1, h1, h2⟩
      · have hroute : (advance T w).route = w.route := advance_route T w
        have hspeed : (advance T w).speed_km_hr = w.speed_km_hr := advance_speed T w
        obtain ⟨k, hk, hkidx, hkp⟩ := ih (advance T w)
          (by rw [hroute]; exact hwsegs)
          (by rw [hroute, hspeed]; exact hwT)
          (by rw [hroute]; exact h2)
          h3
          (by rw [hroute]; omega)
        refine ⟨k + 1, by omega, ?_, ?_⟩
        · rw [advance_iter_succ]
          exact hkidx
        · rw [advance_iter_succ]
          exact hkp
  exact main (v.route.waypoints.length - 1 - v.current_waypoint_index) v hsegs hT hi hp
    (le_refl _)

/-- The closed back-and-forth route `(0,0) → (1,0) → (0,0)`; both segments
have positive length. -/
def route_w : Route :=
  ⟨"r-loop", "Back and forth", [((0 : ℝ), (0 : ℝ)), ((1 : ℝ), (0 : ℝ)), ((0 : ℝ), (0 : ℝ))]⟩

/-- A concrete vehicle at the start of `route_w` with speed 25 km/h. -/
def vw : Vehicle := ⟨"vehicle-005", route_w, 0, 0, 25, 0⟩

/-- C1 (amended) witness: loop closure instantiated on a concrete closed route
with positive-length segments, with the time step covering the full route
distance at 25 km/h. -/
theorem advance_full_route_loop_closure_witness :
    (2 ≤ vw.route.waypoints.length ∧
     (∀ i, i + 1 < vw.route.waypoints.length →
       0 < vw.route.get_distance_between_points (vw.route.waypoints.getD i (0, 0))
         (vw.route.waypoints.getD (i + 1) (0, 0))) ∧
     0 < vw.speed_km_hr ∧
     vw.speed_km_hr / 3600 * (144 * total_route_distance route_w) =
       total_route_distance vw.route ∧
     vw.current_waypoint_index < vw.route.waypoints.length - 1 ∧
     0 ≤ vw.progress_to_next_waypoint) ∧
    (∃ k, 1 ≤ k ∧
      (advance_iter k (144 * total_route_distance route_w) vw).current_waypoint_index = 0 ∧
      (advance_iter k (144 * total_route_distance route_w) vw).progress_to_next_waypoint = 0) := by
  have hsegs : ∀ i, i + 1 < vw.route.waypoints.length →
      0 < vw.route.get_distance_between_points (vw.route.waypoints.getD i (0, 0))
        (vw.route.waypoints.getD (i + 1) (0, 0)) := by
    intro i hi
    have hi3 : i + 1 < 3 := hi
    have hcases : i = 0 ∨ i = 1 := by omega
    rcases hcases with rfl | rfl
    · rw [show vw.route.waypoints.getD 0 (0, 0) = ((0 : ℝ), (0 : ℝ)) from rfl,
        show vw.route.waypoints.getD 1 (0, 0) = ((1 : ℝ), (0 : ℝ)) from rfl]
      exact get_distance_00_10_pos vw.route
    · rw [show vw.route.waypoints.getD 1 (0, 0) = ((1 : ℝ), (0 : ℝ)) from rfl,
        show vw.route.waypoints.getD 2 (0, 0) = ((0 : ℝ), (0 : ℝ)) from rfl,
        get_distance_comm]
      exact get_distance_00_10_pos vw.route
  have hT : vw.speed_km_hr / 3600 * (144 * total_route_distance route_w) =
      total_route_distance vw.route := by
    show (25 : ℝ) / 3600 * (144 * total_route_distance route_w) =
      total_route_distance route_w
    ring
  refine ⟨⟨by norm_num [vw, route_w], hsegs, by norm_num [vw], hT,
    by norm_num [vw, route_w], by norm_num [vw]⟩, ?_⟩
  exact advance_full_route_loop_closure vw (144 * total_route_distance route_w)
    (by norm_num [vw, route_w]) hsegs (by norm_num [vw]) hT
    (by norm_num [vw, route_w]) (by norm_num [vw])

/-- The degenerate two-waypoint route whose single segment has length zero. -/
def route_dup : Route := ⟨"r-dup", "Duplicate waypoints", [((0 : ℝ), (0 : ℝ)), ((0 : ℝ), (0 : ℝ))]⟩

/-- A concrete vehicle at the start of `route_dup` with speed 30 km/h. -/
def vdup : Vehicle := ⟨"vehicle-006", route_dup, 0, 0, 30, 0⟩

lemma total_route_distance_dup : total_route_distance vdup.route = 0 := by
  unfold total_route_distance
  rw [show vdup.route.waypoints.length - 1 = 1 from rfl,
    show List.range 1 = [0] from rfl]
  simp only [List.map_cons, List.map_nil, List.sum_cons, List.sum_nil, add_zero]
  rw [show vdup.route.waypoints.getD 0 (0, 0) = ((0 : ℝ), (0 : ℝ)) from rfl,
    show vdup.route.waypoints.getD (0 + 1) (0, 0) = ((0 : ℝ), (0 : ℝ)) from rfl]
  exact get_distance_self _ _

lemma advance_vdup (T : ℝ) : advance T vdup =
    { vdup with current_waypoint_index := 1, progress_to_next_waypoint := 0 } := by
  unfold advance
  rw [if_neg (by simp [vdup, route_dup])]
  dsimp only
  rw [show vdup.route.waypoints.getD vdup.current_waypoint_index (0, 0) =
      ((0 : ℝ), (0 : ℝ)) from rfl,
    show vdup.route.waypoints.getD (vdup.current_waypoint_index + 1) (0, 0) =
      ((0 : ℝ), (0 : ℝ)) from rfl,
    if_pos (get_distance_self vdup.route ((0 : ℝ), (0 : ℝ)))]
  rfl

lemma advance_vdup_parked (T : ℝ) :
    advance T { vdup with current_waypoint_index := 1, progress_to_next_waypoint := 0 } =
      { vdup with current_waypoint_index := 1, progress_to_next_waypoint := 0 } := by
  unfold advance
  rw [if_pos (Or.inr (by simp [vdup, route_dup]))]

lemma advance_iter_vdup (T : ℝ) : ∀ k, advance_iter (k + 1) T vdup =
    { vdup with current_waypoint_index := 1, progress_to_next_waypoint := 0 } := by
  intro k
  induction k with
  | zero => exact advance_vdup T
  | succ k ih =>
    show advance T (advance_iter (k + 1) T vdup) = _
    rw [ih, advance_vdup_parked]

/-- C1 counterexample: on the two-waypoint route whose only segment has
length zero (full route distance 0, covered in time 0 at speed 30), the very
first `advance` snaps the vehicle to the last index, where every further
`advance` is a no-op — the vehicle never returns to waypoint index 0, so the
claim fails for this route with two waypoints. -/
theorem advance_full_route_no_loop_closure :
    2 ≤ vdup.route.waypoints.length ∧
    vdup.speed_km_hr / 3600 * 0 = total_route_distance vdup.route ∧
    ¬ (∃ k, 1 ≤ k ∧ (advance_iter k 0 vdup).current_waypoint_index = 0 ∧
        (advance_iter k 0 vdup).progress_to_next_waypoint = 0) := by
  refine ⟨by norm_num [vdup, route_dup], ?_, ?_⟩
  · rw [total_route_distance_dup, mul_zero]
  · rintro ⟨k, hk1, hidx, -⟩
    obtain ⟨m, rfl⟩ : ∃ m, k = m + 1 := ⟨k - 1, by omega⟩
    rw [advance_iter_vdup 0 m] at hidx
    exact absurd hidx (by simp)

/-- A one-waypoint route. -/
def route_single : Route := ⟨"r-one", "One waypoint", [((0 : ℝ), (0 : ℝ))]⟩

/-- A concrete vehicle on the one-waypoint route. -/
def vsingle : Vehicle := ⟨"vehicle-002", route_single, 0, 0, 25, 0⟩

/-- C9 witness: the one-waypoint fixedness instantiated on a concrete vehicle
and sequence of time steps. -/
theorem single_waypoint_advance_fixed_witness :
    vsingle.route.waypoints.length = 1 ∧
    ([(1 : ℝ), 2.5, 1000].foldl (fun w dt => advance dt w) vsingle = vsingle) :=
  ⟨by norm_num [vsingle, route_single],
   single_waypoint_advance_fixed vsingle (by norm_num [vsingle, route_single])
     [(1 : ℝ), 2.5, 1000]⟩

/-- Translation of the chunking in `_send_events_parallel_batches`
(`generator.py` line 252): `[events[i:i+batch_size] for i in
range(0, len(events), batch_size)]`.  (For `batch_size = 0` Python's `range`
would raise; the code only ever uses 100, and this rendering returns `[]`
there.) -/
def chunks_of {α : Type} (batch_size : ℕ) : List α → List (List α)
  | [] => []
  | x :: xs =>
    if h : batch_size = 0 then []
    else (x :: xs).take batch_size :: chunks_of batch_size ((x :: xs).drop batch_size)
termination_by l => l.length
decreasing_by
  rw [List.length_drop]
  simp only [List.length_cons]
  omega

/-- Model of `_send_single_batch` (`generator.py` lines 266-294).  The sink
interactions (`create_batch`, `add` with its batch-full `ValueError`,
`send_batch`) are abstracted into a single per-chunk failure flag: an
exception anywhere in the `try` is caught and yields 0 events counted for the
chunk, and otherwise the function returns `len(events_batch)` (line 290). -/
def send_single_batch {α : Type} (fail : Bool) (events_batch : List α) : ℕ :=
  if fail then 0 else events_batch.length

/-- The `asyncio.gather` + `sum` over chunk submissions of
`_send_events_parallel_batches` (`generator.py` lines 262-264), with the
failure flag of each chunk indexed by its position. -/
def send_batches {α : Type} (fails : ℕ → Bool) : ℕ → List (List α) → ℕ
  | _, [] => 0
  | i, b :: bs => send_single_batch (fails i) b + send_batches fails (i + 1) bs

/-- Translation of `_send_events_parallel_batches` (`generator.py` lines
245-264): early 0 on an empty event list, otherwise the summed per-chunk sent
counts over the fixed chunk size 100. -/
def send_events_parallel_batches {α : Type} (fails : ℕ → Bool)
    (events_to_send : List α) : ℕ :=
  if events_to_send.isEmpty then 0
  else send_batches fails 0 (chunks_of 100 events_to_send)

/-- Sum of the sizes of exactly the failing chunks. -/
def failed_total {α : Type} (fails : ℕ → Bool) : ℕ → List (List α) → ℕ
  | _, [] => 0
  | i, b :: bs => (if fails i then b.length else 0) + failed_total fails (i + 1) bs

lemma chunks_of_nil {α : Type} (n : ℕ) : chunks_of n ([] : List α) = [] := by
  simp [chunks_of]

lemma chunks_of_cons {α : Type} (n : ℕ) (hn : n ≠ 0) (x : α) (xs : List α) :
    chunks_of n (x :: xs) =
      (x :: xs).take n :: chunks_of n ((x :: xs).drop n) := by
  rw [chunks_of]
  simp [hn]

lemma send_batches_add_failed {α : Type} (fails : ℕ → Bool) :
    ∀ (bs : List (List α)) (i : ℕ),
      send_batches fails i bs + failed_total fails i bs = (bs.map List.length).sum := by
  intro bs
  induction bs with
  | nil => intro i; simp [send_batches, failed_total]
  | cons b bs ih =>
    intro i
    have h := ih (i + 1)
    by_cases hf : fails i <;>
      simp [send_batches, failed_total, send_single_batch, hf] <;> omega

lemma failed_total_false {α : Type} :
    ∀ (bs : List (List α)) (i : ℕ), failed_total (fun _ => false) i bs = 0 := by
  intro bs
  induction bs with
  | nil => intro i; rfl
  | cons b bs ih => intro i; simp [failed_total, ih]

lemma send_batches_all_fail {α : Type} :
    ∀ (bs : List (List α)) (i : ℕ), send_batches (fun _ => true) i bs = 0 := by
  intro bs
  induction bs with
  | nil => intro i; rfl
  | cons b bs ih => intro i; simp [send_batches, send_single_batch, ih]

lemma chunks_of_sum_lengths {α : Type} (n : ℕ) (hn : n ≠ 0) (l : List α) :
    ((chunks_of n l).map List.length).sum = l.length := by
  have H : ∀ (fuel : ℕ) (l : List α), l.length ≤ fuel →
      ((chunks_of n l).map List.length).sum = l.length := by
    intro fuel
    induction fuel with
    | zero =>
      intro l hl
      have he : l = [] := List.eq_nil_of_length_eq_zero (by omega)
      subst he
      rw [chunks_of_nil]
      rfl
    | succ fuel ih =>
      intro l hl
      match l with
      | [] =>
        rw [chunks_of_nil]
        rfl
      | x :: xs =>
        rw [chunks_of_cons n hn]
        simp only [List.map_cons, List.sum_cons]
        rw [ih ((x :: xs).drop n)
          (by rw [List.length_drop]; simp only [List.length_cons] at hl ⊢; omega)]
        rw [List.length_take, List.length_drop]
        simp only [List.length_cons]
        omega
  exact H l.length l (le_refl _)

lemma chunks_of_lengths {α : Type} (n : ℕ) (hn : n ≠ 0) (l : List α) :
    (chunks_of n l).map List.length =
      List.replicate (l.length / n) n ++
        (if l.length % n = 0 then [] else [l.length % n]) := by
  have H : ∀ (fuel : ℕ) (l : List α), l.length ≤ fuel →
      (chunks_of n l).map List.length =
        List.replicate (l.length / n) n ++
          (if l.length % n = 0 then [] else [l.length % n]) := by
    intro fuel
    induction fuel with
    | zero =>
      intro l hl
      have he : l = [] := List.eq_nil_of_length_eq_zero (by omega)
      subst he
      rw [chunks_of_nil]
      simp
    | succ fuel ih =>
      intro l hl
      match l with
      | [] =>
        rw [chunks_of_nil]
        simp
      | x :: xs =>
        rw [chunks_of_cons n hn, List.map_cons]
        by_cases hK : (x :: xs).length ≤ n
        · rw [List.drop_eq_nil_of_le hK, chunks_of_nil]
          rw [List.length_take, min_eq_right hK]
          by_cases hKn : (x :: xs).length = n
          · rw [hKn, Nat.div_self (by omega), Nat.mod_self]
            simp
          · have hlt : (x :: xs).length < n := lt_of_le_of_ne hK hKn
            rw [Nat.div_eq_of_lt hlt, Nat.mod_eq_of_lt hlt]
            have hne0 : (x :: xs).length ≠ 0 := by simp
            rw [if_neg hne0]
            simp
        · push_neg at hK
          have hKn : n ≤ (x :: xs).length := hK.le
          rw [ih ((x :: xs).drop n)
            (by rw [List.length_drop]; simp only [List.length_cons] at hl ⊢; omega)]
          rw [List.length_take, min_eq_left hKn, List.length_drop]
          have hdiv : (x :: xs).length / n = ((x :: xs).length - n) / n + 1 :=
            Nat.div_eq_sub_div (by omega) hKn
          have hmod : (x :: xs).length % n = ((x :: xs).length - n) % n :=
            (Nat.mod_eq_sub_mod hKn).symm ▸ rfl
          rw [hdiv, Nat.mod_eq_sub_mod hKn, List.replicate_succ, List.cons_append]
  exact H l.length l (le_refl _)

lemma send_events_partition {α : Type} (fails : ℕ → Bool) (events : List α) :
    send_events_parallel_batches fails events +
      failed_total fails 0 (chunks_of 100 events) = events.length := by
  unfold send_events_parallel_batches
  by_cases he : events.isEmpty
  · have hnil : events = [] := by
      cases events with
      | nil => rfl
      | cons a l => simp [List.isEmpty] at he
    subst hnil
    rw [chunks_of_nil]
    simp [failed_total]
  · rw [if_neg he, send_batches_add_failed]
    exact chunks_of_sum_lengths 100 (by norm_num) events

lemma send_events_nofail {α : Type} (events : List α) :
    send_events_parallel_batches (fun _ => false) events = events.length := by
  have h := send_events_partition (fun _ => false) events
  rw [failed_total_false] at h
  omega

/-- C2: with chunk size 100, a tick's events split into `len / 100` full
chunks of 100 plus a final chunk of `len % 100` when nonzero; the pipeline
total equals the fleet size when no chunk fails, the total plus the sizes of
the failing chunks always equals the fleet size (so a failing chunk counts as
zero and affects no sibling chunk), and the total is the fleet size minus the
failing chunks' sizes. -/
theorem dispatch_chunks_and_totals {α : Type} (events : List α) (fails : ℕ → Bool) :
    ((chunks_of 100 events).map List.length =
       List.replicate (events.length / 100) 100 ++
         (if events.length % 100 = 0 then [] else [events.length % 100])) ∧
    send_events_parallel_batches (fun _ => false) events = events.length ∧
    (send_events_parallel_batches fails events +
       failed_total fails 0 (chunks_of 100 events) = events.length) ∧
    send_events_parallel_batches fails events =
      events.length - failed_total fails 0 (chunks_of 100 events) := by
  refine ⟨chunks_of_lengths 100 (by norm_num) events, send_events_nofail events,
    send_events_partition fails events, ?_⟩
  have h := send_events_partition fails events
  omega

/-- The loop state of `run_feed` (`generator.py` lines 372-374 and the while
body): the fleet plus the two performance counters `total_events_sent` and
`batch_count`. -/
structure FeedState where
  vehicles : List Vehicle
  total_events_sent : ℕ
  batch_count : ℕ

/-- Translation of `advance_vehicles` (`generator.py` lines 341-348): advance
every vehicle by the time step. -/
noncomputable def advance_vehicles (time_step_seconds : ℝ) (vs : List Vehicle) :
    List Vehicle :=
  vs.map (fun v => advance time_step_seconds v)

/-- One iteration of the `while self.running` body of `run_feed`
(`generator.py` lines 378-398), restricted to its state effect: events are
dispatched (the pipeline's count is logged but not used), then
`total_events_sent += num_vehicles` and `batch_count += 1` (lines 385-386),
then every vehicle advances by `poll_interval` (line 398). -/
noncomputable def run_feed_tick (num_vehicles : ℕ) (poll_interval : ℝ)
    (s : FeedState) : FeedState :=
  { vehicles := advance_vehicles poll_interval s.vehicles
    total_events_sent := s.total_events_sent + num_vehicles
    batch_count := s.batch_count + 1 }

/-- Iterates the feed loop body `n` times. -/
noncomputable def run_feed_iter (num_vehicles : ℕ) (poll_interval : ℝ) :
    ℕ → FeedState → FeedState
  | 0, s => s
  | n + 1, s => run_feed_iter num_vehicles poll_interval n
      (run_feed_tick num_vehicles poll_interval s)

lemma run_feed_iter_total (num_vehicles : ℕ) (poll_interval : ℝ) :
    ∀ (n : ℕ) (s : FeedState),
      (run_feed_iter num_vehicles poll_interval n s).total_events_sent =
        s.total_events_sent + n * num_vehicles := by
  intro n
  induction n with
  | zero => intro s; simp [run_feed_iter]
  | succ n ih =>
    intro s
    show (run_feed_iter num_vehicles poll_interval n
      (run_feed_tick num_vehicles poll_interval s)).total_events_sent = _
    rw [ih]
    show s.total_events_sent + num_vehicles + n * num_vehicles = _
    ring

/-- C3 counterexample: with a fleet of 3 vehicles whose single chunk
submission fails, the pipeline's tick total is 0, yet one iteration of the
feed loop increments the cumulative events-sent counter by the fleet size 3 —
the counter is not incremented by the aggregated per-chunk sent total. -/
theorem run_feed_counter_mismatch :
    send_events_parallel_batches (fun _ => true) ([0, 1, 2] : List ℕ) = 0 ∧
    (run_feed_iter 3 1 1 ⟨[vw, vw, vw], 0, 0⟩).total_events_sent = 3 := by
  constructor
  · unfold send_events_parallel_batches
    rw [if_neg (by simp)]
    exact send_batches_all_fail _ 0
  · rw [run_feed_iter_total 3 1 1 ⟨[vw, vw, vw], 0, 0⟩]

/-- C3 (amended): each feed-loop iteration increments the cumulative
events-sent counter by the fleet size `num_vehicles`, regardless of the
pipeline's per-chunk outcomes, so after `n` ticks the counter reads
`n * num_vehicles`; this equals the sum of the per-tick pipeline totals
exactly in the failure-free case (where each tick's total is the fleet
size). -/
theorem run_feed_counter_fleet_size {α : Type} (events : List α) (n : ℕ)
    (poll_interval : ℝ) (vs : List Vehicle) :
    (run_feed_iter events.length poll_interval n ⟨vs, 0, 0⟩).total_events_sent =
      n * events.length ∧
    n * send_events_parallel_batches (fun _ => false) events =
      (run_feed_iter events.length poll_interval n ⟨vs, 0, 0⟩).total_events_sent := by
  have h1 := run_feed_iter_total events.length poll_interval n ⟨vs, 0, 0⟩
  have h2 := send_events_nofail events
  constructor
  · rw [h1]
    show 0 + n * events.length = n * events.length
    omega
  · rw [h1, h2]
    show n * events.length = 0 + n * events.length
    omega
